import Mathlib

/-!
Verification development for the LinkedIn candidate-scraper core.

The definitions below are shallow embeddings of the JavaScript sources:

* `src/services/rateLimitService.js` — the persisted rate-limit ledger
  (`loadRateLimitState`, `canMakeRequest`, `recordView`,
  `handleRateLimitError`, `handleForbiddenError`).
* `src/services/linkedinService.js` — the `searchPeople` request path
  (admission check, navigation, status classification, `recordView`).
* `src/services/scrapeService.js` — the relevance filter `filterResults`.
* `src/services/dataExtractionService.js` — the Cheerio search-result
  extraction loop (`extractSearchResultsWithCheerio`).

Modelling conventions: JavaScript timestamps are integers of milliseconds
(`Int`); the quota day is the raw ISO date string (`String`); fallible
fields are `Option`; JavaScript string falsiness (absent / empty) is made
explicit.  The module keeps two copies of the ledger state, the persisted
file (`Option RLState`, `none` while the file does not exist) and the
module-level variable `rateLimitState`; both are threaded explicitly
because `loadRateLimitState` reads one and saves the other.
-/

/-- Consecutive-error counters of the ledger, one per error class
(`errors` object in `rateLimitService.js`, keys `429`, `403`, `network`). -/
structure ErrCounters where
  e429 : Nat
  e403 : Nat
  network : Nat
deriving Repr, DecidableEq

/-- Error classes accepted by `handleRateLimitError(errorType)`. -/
inductive ErrKind where
  | e429
  | e403
  | network
deriving Repr, DecidableEq

/-- Counter lookup, `rateLimitState.errors[errorType] || 0`. -/
def ErrCounters.get (e : ErrCounters) : ErrKind → Nat
  | ErrKind.e429 => e.e429
  | ErrKind.e403 => e.e403
  | ErrKind.network => e.network

/-- Counter increment, `rateLimitState.errors[errorType] = (… || 0) + 1`. -/
def ErrCounters.bump (e : ErrCounters) : ErrKind → ErrCounters
  | ErrKind.e429 => { e with e429 := e.e429 + 1 }
  | ErrKind.e403 => { e with e403 := e.e403 + 1 }
  | ErrKind.network => { e with network := e.network + 1 }

/-- The persisted rate-limit ledger record (`rate-limit.json`): quota day,
request counter, last reset time, backoff deadline, error counters.
Timestamps are epoch milliseconds. -/
structure RLState where
  date : String
  viewCount : Nat
  lastReset : Option Int
  backoffUntil : Option Int
  errors : ErrCounters
deriving Repr, DecidableEq

/-- Environment configuration of the ledger: `DAILY_VIEW_LIMIT`,
`BACKOFF_BASE` (minutes) and `BACKOFF_MULTIPLIER`. -/
structure RLConfig where
  dailyViewLimit : Nat
  backoffBase : ℚ
  backoffMultiplier : ℚ
deriving Repr, DecidableEq

/-- The default configuration (40 views/day, 30-minute base, factor 2). -/
def defaultRLConfig : RLConfig := { dailyViewLimit := 40, backoffBase := 30, backoffMultiplier := 2 }

/-- A freshly reset ledger state for day `today` at time `now`
(the object literal used on day rollover and on first creation). -/
def freshRLState (now : Int) (today : String) : RLState :=
  { date := today
    viewCount := 0
    lastReset := some now
    backoffUntil := none
    errors := { e429 := 0, e403 := 0, network := 0 } }

/-- Embedding of `loadRateLimitState`.  Input: the persisted file (`none`
when reading fails with ENOENT), the module-level `rateLimitState`
variable, the current time and UTC day.  Output: the new file content and
the new module-level state.

Source behaviour worth noting: in the expired-backoff branch the code
mutates the freshly parsed `state` object and then calls
`saveRateLimitState`, which serialises the module-level `rateLimitState`;
the assignment `rateLimitState = state` happens only afterwards, so the
file is rewritten with the old module-level state, not the cleared one. -/
def loadRateLimitState (now : Int) (today : String) (file : Option RLState) (mem : RLState) :
    Option RLState × RLState :=
  match file with
  | none =>
      let s := freshRLState now today
      (some s, s)
  | some st =>
      if st.date ≠ today then
        let s := freshRLState now today
        (some s, s)
      else
        match st.backoffUntil with
        | some t =>
            if now > t then
              (some mem, { st with backoffUntil := none })
            else
              (some st, st)
        | none => (some st, st)

/-- Result of the admission check `canMakeRequest`. -/
inductive AdmissionResult where
  | allowed
  | deniedBackoff (remainingMinutes : Nat)
  | deniedDailyLimit (viewCount : Nat) (limit : Nat)
deriving Repr, DecidableEq

/-- Remaining whole minutes until a future deadline,
`Math.ceil((backoffTime - new Date()) / 1000 / 60)` for a positive
difference `diff` in milliseconds. -/
def ceilMinutesOfMs (diff : Int) : Nat :=
  (diff.toNat + 59999) / 60000

/-- Embedding of `canMakeRequest`: reload the ledger, deny while a future
backoff deadline is set (clearing and saving it once passed), then deny
once the daily limit is reached, otherwise allow. -/
def canMakeRequest (cfg : RLConfig) (now : Int) (today : String)
    (file : Option RLState) (mem : RLState) :
    AdmissionResult × Option RLState × RLState :=
  let loaded := loadRateLimitState now today file mem
  let f1 := loaded.1
  let m1 := loaded.2
  match m1.backoffUntil with
  | some t =>
      if now < t then
        (AdmissionResult.deniedBackoff (ceilMinutesOfMs (t - now)), f1, m1)
      else
        let m2 := { m1 with backoffUntil := none }
        if cfg.dailyViewLimit ≤ m2.viewCount then
          (AdmissionResult.deniedDailyLimit m2.viewCount cfg.dailyViewLimit, some m2, m2)
        else
          (AdmissionResult.allowed, some m2, m2)
  | none =>
      if cfg.dailyViewLimit ≤ m1.viewCount then
        (AdmissionResult.deniedDailyLimit m1.viewCount cfg.dailyViewLimit, f1, m1)
      else
        (AdmissionResult.allowed, f1, m1)

/-- Embedding of `recordView`: reload, increment `viewCount`, save. -/
def recordView (now : Int) (today : String) (file : Option RLState) (mem : RLState) :
    Option RLState × RLState :=
  let loaded := loadRateLimitState now today file mem
  let m1 := loaded.2
  let m2 := { m1 with viewCount := m1.viewCount + 1 }
  (some m2, m2)

/-- Embedding of `handleRateLimitError(errorType)`: reload, increment the
counter of the given error class, set
`backoffUntil = now + BACKOFF_BASE * BACKOFF_MULTIPLIER ^ (counter - 1)`
minutes, save.  Returns the backoff magnitude in minutes together with the
new file and module states.  The millisecond deadline is the truncation of
the (possibly fractional) minute value, as `new Date(number)` truncates. -/
def handleRateLimitError (cfg : RLConfig) (now : Int) (today : String) (kind : ErrKind)
    (file : Option RLState) (mem : RLState) :
    ℚ × Option RLState × RLState :=
  let loaded := loadRateLimitState now today file mem
  let m1 := loaded.2
  let cnt := m1.errors.get kind + 1
  let backoffMinutes : ℚ := cfg.backoffBase * cfg.backoffMultiplier ^ (cnt - 1)
  let m2 := { m1 with
                errors := m1.errors.bump kind
                backoffUntil := some (now + ⌊backoffMinutes * 60000⌋) }
  (backoffMinutes, some m2, m2)

/-- Embedding of `handleForbiddenError`: reload, increment the `403`
counter, save.  No backoff deadline is set. -/
def handleForbiddenError (now : Int) (today : String) (file : Option RLState) (mem : RLState) :
    Option RLState × RLState :=
  let loaded := loadRateLimitState now today file mem
  let m1 := loaded.2
  let m2 := { m1 with errors := m1.errors.bump ErrKind.e403 }
  (some m2, m2)

/-!
String machinery for the relevance filter (`scrapeService.js`) and the
extraction loop.  Strings are processed as `List Char`; the helpers mirror
the JavaScript string operations used by the sources, restricted to the
ASCII fragment the sources rely on (`\w` is `[A-Za-z0-9_]`, `\s` covers
the usual ASCII whitespace).
-/

/-- JavaScript `\s` (ASCII fragment): space, tab, newline, carriage
return, form feed and vertical tab. -/
def isSpaceL (c : Char) : Bool :=
  c = ' ' || c = '\t' || c = '\n' || c = '\r' || c = '\x0c' || c = '\x0b'

/-- JavaScript `\w`: ASCII letters, digits and underscore. -/
def isWordCharL (c : Char) : Bool :=
  c.isAlphanum || c = '_'

/-- Lowercasing, `String.prototype.toLowerCase` on the ASCII fragment. -/
def lowerL (l : List Char) : List Char :=
  l.map Char.toLower

/-- Auxiliary for whitespace collapsing: the flag records whether the
previous character belonged to a whitespace run. -/
def collapseWsAux : Bool → List Char → List Char
  | _, [] => []
  | prev, c :: cs =>
      if isSpaceL c then
        if prev then collapseWsAux true cs else ' ' :: collapseWsAux true cs
      else
        c :: collapseWsAux false cs

/-- JavaScript `replace(/\s+/g, ' ')`: every maximal whitespace run
becomes a single space. -/
def collapseWs (l : List Char) : List Char :=
  collapseWsAux false l

/-- JavaScript `trim()`: strip leading and trailing whitespace. -/
def trimL (l : List Char) : List Char :=
  ((l.dropWhile isSpaceL).reverse.dropWhile isSpaceL).reverse

/-- Auxiliary for splitting on a single character; `acc` holds the
current piece reversed. -/
def splitCharAux (sep : Char) (acc : List Char) : List Char → List (List Char)
  | [] => [acc.reverse]
  | c :: cs =>
      if c = sep then acc.reverse :: splitCharAux sep [] cs
      else splitCharAux sep (c :: acc) cs

/-- JavaScript `split(sep)` for a one-character separator. -/
def splitCharL (sep : Char) (l : List Char) : List (List Char) :=
  splitCharAux sep [] l

/-- JavaScript `split(/\s+/)`: since every maximal whitespace run is one
separator, this equals splitting the whitespace-collapsed string on a
single space (including the leading empty piece for leading whitespace,
and `[""]` for the empty string). -/
def splitWs (l : List Char) : List (List Char) :=
  splitCharL ' ' (collapseWs l)

/-- Does `l` start with `p`?  JavaScript `startsWith`. -/
def startsWithL : List Char → List Char → Bool
  | _, [] => true
  | [], _ :: _ => false
  | c :: cs, p :: ps => c = p && startsWithL cs ps

/-- Does `hay` contain `needle` as a contiguous substring?
JavaScript `includes`. -/
def containsL : List Char → List Char → Bool
  | [], needle => needle.isEmpty
  | c :: cs, needle => startsWithL (c :: cs) needle || containsL cs needle

/-- Embedding of the `normalizeTitle` closure of `filterResults`:
lowercase, replace `'|'` by a space, replace every character that is
neither a word character nor whitespace by a space, collapse whitespace
runs, trim. -/
def normalizeTitle (l : List Char) : List Char :=
  trimL (collapseWs
    (((lowerL l).map fun c => if c = '|' then ' ' else c).map
      fun c => if isWordCharL c || isSpaceL c then c else ' '))

/-- The Spanish stop-word list of `filterResults`, duplicates included. -/
def stopWords : List (List Char) :=
  ["de", "del", "la", "el", "en", "y", "o", "a", "al", "los", "las", "un",
   "una", "el", "en", "con", "por", "para"].map String.data

/-- Significant words of the normalized target role: split on whitespace,
keep words longer than two characters that are not stop words. -/
def jobTitleWords (normalizedSearchTitle : List Char) : List (List Char) :=
  (splitWs normalizedSearchTitle).filter
    fun w => decide (2 < w.length) && !(decide (w ∈ stopWords))

/-- Per-word test of `filterResults`: the word occurs as a substring of
the normalized candidate title, or some space-separated token of that
title starts with the word, or the word starts with such a token. -/
def wordMatches (normalizedPersonTitle : List Char) (w : List Char) : Bool :=
  containsL normalizedPersonTitle w ||
    (splitCharL ' ' normalizedPersonTitle).any
      fun t => startsWithL t w || startsWithL w t

/-- Embedding of the role-match computation of `filterResults`, applied to
the already-normalized candidate title and target role.  With at least one
significant target word: enough matching words (`max(1, ceil(n/2))`), or a
match ratio of at least one half, or one normalized string contains the
other (the second containment check goes through `split('|')[0].trim()`).
With no significant words: plain mutual substring containment. -/
def titleMatch (normalizedPersonTitle normalizedSearchTitle : List Char) : Bool :=
  let jtw := jobTitleWords normalizedSearchTitle
  if 0 < jtw.length then
    let matching := jtw.filter (wordMatches normalizedPersonTitle)
    let minMatches := max 1 ((jtw.length + 1) / 2)
    decide (minMatches ≤ matching.length) ||
      decide (jtw.length ≤ 2 * matching.length) ||
      containsL normalizedPersonTitle normalizedSearchTitle ||
      containsL normalizedSearchTitle
        (trimL ((splitCharL '|' normalizedPersonTitle).headD []))
  else
    containsL normalizedPersonTitle normalizedSearchTitle ||
      containsL normalizedSearchTitle normalizedPersonTitle

/-- A raw candidate record as consumed by the relevance filter.  Fields
may be absent (`none`) or present; JavaScript treats the empty string as
falsy, which the filter embedding checks explicitly. -/
structure Person where
  name : Option String
  profileUrl : Option String
  title : Option String
  company : Option String
  location : Option String
deriving Repr, DecidableEq

/-- The per-candidate predicate of `filterResults`: reject unless both
`title` and `profileUrl` are truthy, then decide by the role match on the
normalized lowercased titles. -/
def personPasses (jobTitle : String) (p : Person) : Bool :=
  match p.title, p.profileUrl with
  | some t, some u =>
      if t.isEmpty || u.isEmpty then false
      else
        titleMatch (normalizeTitle (lowerL t.data))
          (normalizeTitle (lowerL jobTitle.data))
  | _, _ => false

/-- Embedding of `filterResults(results, companyName, jobTitle)`.  The
`companyName` argument is part of the source signature; the source body
never reads it. -/
def filterResults (results : List Person) (companyName : String) (jobTitle : String) :
    List Person :=
  results.filter (personPasses jobTitle)

/-!
Embedding of the `searchPeople` request path (`linkedinService.js`,
lines 979–1203).  Browser navigation is an oracle: a `NavInput` record
describes how the single search navigation of one call behaves (whether
`page.goto` throws and which markers its message contains, the HTTP
status, and whether the page content carries challenge markers).  The
extraction stage is likewise abstracted by the list `extracted` of
records it would return.  The ledger file and module states are threaded
through the rate-limit calls exactly as the source performs them.
-/

/-- Oracle for one search navigation inside `searchPeople`. -/
structure NavInput where
  gotoFails : Bool
  msgHas403 : Bool
  msgHas429 : Bool
  msgHasCloudflare : Bool
  msgSessionClosed : Bool
  status : Option Nat
  contentChallenge : Bool
deriving Repr, DecidableEq

/-- Candidate record pushed by the Cheerio search-result extraction. -/
structure ExtractedPerson where
  name : String
  profileUrl : String
  title : String
  location : String
  company : String
  rawText : String
deriving Repr, DecidableEq

/-- Observable outcome of one `searchPeople` call: a normal return with a
result list, or one of the propagated errors (the admission denial thrown
before navigating, and the rethrown 403 / 429 / challenge errors). -/
inductive SearchOutcome where
  | results (ps : List ExtractedPerson)
  | rateDenied (r : AdmissionResult)
  | err403
  | err429
  | errCloudflare
deriving Repr, DecidableEq

/-- Embedding of `searchPeople`.  Returns the outcome, the final ledger
file and module states, and the number of search navigations issued
(0 or 1).  Control flow from the source: admission check (throwing on
denial); navigation; on a thrown `goto` error the inner catch classifies
by message markers (403/Forbidden → `handleForbiddenError` and rethrow,
429/Rate Limit → `handleRateLimitError` and rethrow, CLOUDFLARE →
rethrow, anything else → rethrow as a network error, which the outer
catch swallows into a normal `[]` return); on a 403 or 429 status the
handler runs once inline and a second time in the inner catch because the
thrown message contains the marker again; on challenge markers in the
page content a CLOUDFLARE error is thrown; otherwise the view is recorded
and the extracted results are returned. -/
def searchPeople (cfg : RLConfig) (now : Int) (today : String)
    (file : Option RLState) (mem : RLState) (nav : NavInput)
    (extracted : List ExtractedPerson) :
    SearchOutcome × Option RLState × RLState × Nat :=
  let adm := canMakeRequest cfg now today file mem
  let r := adm.1
  let f1 := adm.2.1
  let m1 := adm.2.2
  if r = AdmissionResult.allowed then
    if nav.gotoFails then
      if nav.msgHas403 then
        let h := handleForbiddenError now today f1 m1
        (SearchOutcome.err403, h.1, h.2, 1)
      else if nav.msgHas429 then
        let h := handleRateLimitError cfg now today ErrKind.e429 f1 m1
        (SearchOutcome.err429, h.2.1, h.2.2, 1)
      else if nav.msgHasCloudflare then
        (SearchOutcome.errCloudflare, f1, m1, 1)
      else
        (SearchOutcome.results [], f1, m1, 1)
    else if nav.status = some 403 then
      let h1 := handleForbiddenError now today f1 m1
      let h2 := handleForbiddenError now today h1.1 h1.2
      (SearchOutcome.err403, h2.1, h2.2, 1)
    else if nav.status = some 429 then
      let h1 := handleRateLimitError cfg now today ErrKind.e429 f1 m1
      let h2 := handleRateLimitError cfg now today ErrKind.e429 h1.2.1 h1.2.2
      (SearchOutcome.err429, h2.2.1, h2.2.2, 1)
    else if nav.contentChallenge then
      (SearchOutcome.errCloudflare, f1, m1, 1)
    else
      let rv := recordView now today f1 m1
      (SearchOutcome.results extracted, rv.1, rv.2, 1)
  else
    (SearchOutcome.rateDenied r, f1, m1, 0)

/-- A navigation that completes normally: `page.goto` does not throw, the
status is neither 403 nor 429, and the page content carries no challenge
markers.  `searchPeople` records the view exactly on these navigations. -/
def navCompletes (nav : NavInput) : Bool :=
  !nav.gotoFails && !(nav.status = some 403) && !(nav.status = some 429)
    && !nav.contentChallenge

/-!
Embedding of the Cheerio search-result extraction
(`extractSearchResultsWithCheerio`, `dataExtractionService.js` lines
216–399).  The per-container text heuristics (name / title / location /
company recovery from the container text) are pure string computations
whose outputs the dedup loop consumes; a `RawLink` record carries one
anchor element of the rendered page in document order, its raw `href`
attribute, the text of its result container, and the outputs of those
heuristics.  The loop itself — the raw-href dedup set, the container and
navigation-text guards, the name-or-title admission test, the name
cleanup and the URL absolutisation — is embedded faithfully below.
-/

/-- One profile anchor of the rendered page, in document order. -/
structure RawLink where
  href : Option String
  containerFound : Bool
  containerText : String
  name : String
  title : String
  location : String
  company : String
deriving Repr, DecidableEq

/-- JavaScript `includes` on `String`. -/
def containsS (hay sub : String) : Bool :=
  containsL hay.data sub.data

/-- JavaScript `startsWith` on `String`. -/
def startsWithS (s p : String) : Bool :=
  startsWithL s.data p.data

/-- JavaScript `replace(/c.*$/, '')`: truncate at the first occurrence of
the character `c`. -/
def truncAtChar (c : Char) (s : String) : String :=
  ⟨s.data.takeWhile (fun d => !(d = c))⟩

/-- JavaScript `trim()` on `String`. -/
def trimS (s : String) : String :=
  ⟨trimL s.data⟩

/-- JavaScript `substring(0, n)` on `String` (ASCII fragment). -/
def takeS (n : Nat) (s : String) : String :=
  ⟨s.data.take n⟩

/-- The jQuery pre-filter over profile anchors: an `href` attribute is
present and contains `/in/` but not `/company/`. -/
def linkSelected (r : RawLink) : Bool :=
  match r.href with
  | some h => containsS h "/in/" && !containsS h "/company/"
  | none => false

/-- The per-record guards of the extraction loop that do not involve the
dedup set: a truthy `href`, a non-empty container, a container text that
is not site navigation, and a name or title recovered from the container. -/
def linkAdmissible (r : RawLink) : Bool :=
  match r.href with
  | some h =>
      !h.isEmpty && r.containerFound
        && !(containsS r.containerText "Sign in" || containsS r.containerText "Join now")
        && (!r.name.isEmpty || !r.title.isEmpty)
  | none => false

/-- The raw dedup key of a record: its `href` attribute as found in the
document (before absolutisation). -/
def rawKey (r : RawLink) : String :=
  r.href.getD ""

/-- Absolutise a profile URL: prepend the site origin unless the raw
`href` already starts with `http`. -/
def fullUrl (href : String) : String :=
  if startsWithS href "http" then href else "https://www.linkedin.com" ++ href

/-- Build the pushed candidate record from an admissible link: clean the
name (truncate at bullet separators, trim, fall back to the redaction
placeholder), absolutise the URL, keep the first 300 characters of the
container text for debugging. -/
def buildPerson (r : RawLink) : ExtractedPerson :=
  let cleaned := trimS (truncAtChar '·' (truncAtChar '•' r.name))
  { name := if cleaned.isEmpty then "LinkedIn Member" else cleaned
    profileUrl := fullUrl (rawKey r)
    title := r.title
    location := r.location
    company := r.company
    rawText := takeS 300 r.containerText }

/-- The extraction loop over the pre-filtered anchors, threading the
`seenUrls` set of raw hrefs; each admitted record is returned together
with its raw dedup key. -/
def cheerioLoop (seen : List String) : List RawLink → List (String × ExtractedPerson)
  | [] => []
  | r :: rs =>
      match r.href with
      | none => cheerioLoop seen rs
      | some h =>
          if h.isEmpty || seen.contains h then cheerioLoop seen rs
          else if !r.containerFound then cheerioLoop seen rs
          else if containsS r.containerText "Sign in" || containsS r.containerText "Join now" then
            cheerioLoop seen rs
          else if !r.name.isEmpty || !r.title.isEmpty then
            (h, buildPerson r) :: cheerioLoop (h :: seen) rs
          else
            cheerioLoop seen rs

/-- Embedding of `extractSearchResultsWithCheerio`: pre-filter the
anchors, run the dedup loop with an empty seen set, return the pushed
candidate records. -/
def extractSearchResultsWithCheerio (links : List RawLink) : List ExtractedPerson :=
  (cheerioLoop [] (links.filter linkSelected)).map Prod.snd

/-- First-occurrence-wins deduplication of a keyed list (reference
definition for the dedup theorem). -/
def dedupByFst (seen : List String) : List (String × ExtractedPerson) → List (String × ExtractedPerson)
  | [] => []
  | kv :: rest =>
      if seen.contains kv.1 then dedupByFst seen rest
      else kv :: dedupByFst (kv.1 :: seen) rest

/-!
Remaining definitions: the iterated rate-limit failure sequence used for
the exponential-backoff claim, the company-match rule as worded by the
specification (the source contains no such logic, so the rule is modelled
from the specification text purely for comparison), and the concrete
sample inputs used by counterexamples and witnesses.
-/

/-- Iterate `handleRateLimitError('429')` once per entry of `times`
(each entry is the clock value of one call), returning the list of
backoff magnitudes produced, together with the final ledger states. -/
def consecutiveRateLimitCalls (cfg : RLConfig) (today : String) :
    List Int → Option RLState → RLState → List ℚ × Option RLState × RLState
  | [], file, mem => ([], file, mem)
  | t :: ts, file, mem =>
      let h := handleRateLimitError cfg t today ErrKind.e429 file mem
      let rest := consecutiveRateLimitCalls cfg today ts h.2.1 h.2.2
      (h.1 :: rest.1, rest.2.1, rest.2.2)

/-- Modelled from the spec: the company-match rule described in §4.4
(normalise employer and target company, accept on mutual containment or
when at least half of the target company significant words appear in the
employer text).  `filterResults` in the source contains no company
matching at all; this definition exists only to compare the
specification text against the source behaviour. -/
def specCompanyMatch (employer targetCompany : String) : Bool :=
  let ne := normalizeTitle (lowerL employer.data)
  let nc := normalizeTitle (lowerL targetCompany.data)
  let sig := jobTitleWords nc
  containsL ne nc || containsL nc ne ||
    (decide (0 < sig.length) &&
      decide (sig.length ≤ 2 * (sig.filter (fun w => containsL ne w)).length))

/-- Sample candidate with an empty title and an exact company match. -/
def c2Person : Person :=
  { name := some "Jane Doe"
    profileUrl := some "https://www.linkedin.com/in/jane-doe"
    title := some ""
    company := some "Acme Corporation"
    location := none }

/-- Sample candidate whose stated employer is unrelated to the target
company but whose title matches the target role. -/
def c3Person : Person :=
  { name := some "John Roe"
    profileUrl := some "https://www.linkedin.com/in/john-roe"
    title := some "Marketing Manager"
    company := some "Zzz Unrelated Holdings"
    location := none }

/-- Ledger state on day `2026-02-03` with an expired backoff deadline. -/
def c6State : RLState :=
  { date := "2026-02-03"
    viewCount := 0
    lastReset := none
    backoffUntil := some 0
    errors := { e429 := 0, e403 := 0, network := 0 } }

/-- Ledger state with the daily quota exhausted and an active future
backoff deadline. -/
def c8State : RLState :=
  { date := "2026-02-03"
    viewCount := 40
    lastReset := none
    backoffUntil := some 100000
    errors := { e429 := 0, e403 := 0, network := 0 } }

/-- Ledger state with the daily quota exhausted and no backoff. -/
def c8StateNoBackoff : RLState :=
  { date := "2026-02-03"
    viewCount := 40
    lastReset := none
    backoffUntil := none
    errors := { e429 := 0, e403 := 0, network := 0 } }

/-- Profile anchor carrying a relative `href`. -/
def c9Link1 : RawLink :=
  { href := some "/in/john-doe"
    containerFound := true
    containerText := "John Doe Marketing Manager at Acme"
    name := "John Doe"
    title := "Marketing Manager"
    location := ""
    company := "Acme" }

/-- Profile anchor of the same profile carrying its absolute URL. -/
def c9Link2 : RawLink :=
  { c9Link1 with href := some "https://www.linkedin.com/in/john-doe" }

/-- Navigation oracle: a navigation answered with HTTP status 429. -/
def c1Nav429 : NavInput :=
  { gotoFails := false
    msgHas403 := false
    msgHas429 := false
    msgHasCloudflare := false
    msgSessionClosed := false
    status := some 429
    contentChallenge := false }

/-- Navigation oracle: `page.goto` throws a generic network error
(for example a navigation timeout) with no classification markers. -/
def navNetworkFail : NavInput :=
  { gotoFails := true
    msgHas403 := false
    msgHas429 := false
    msgHasCloudflare := false
    msgSessionClosed := false
    status := none
    contentChallenge := false }

/-- Navigation oracle: a navigation that completes with status 200 and a
challenge-free page. -/
def navOk : NavInput :=
  { gotoFails := false
    msgHas403 := false
    msgHas429 := false
    msgHasCloudflare := false
    msgSessionClosed := false
    status := some 200
    contentChallenge := false }

/-!
Theorems.  Helper lemmas about the ledger reload come first; the claim
theorems follow, one per claim, each preceded by a doc comment naming the
claim.
-/

/-- Reloading on the current day preserves the core fields: the resulting
module state is the stored state, possibly with an expired backoff
deadline cleared. -/
theorem loadRateLimitState_mem_today (now : Int) (today : String) (s m : RLState)
    (hd : s.date = today) :
    (loadRateLimitState now today (some s) m).2 = s ∨
      (loadRateLimitState now today (some s) m).2 = { s with backoffUntil := none } := by
  cases hb : s.backoffUntil with
  | none => left; simp [loadRateLimitState, hd, hb]
  | some t =>
      by_cases h : now > t
      · right; simp [loadRateLimitState, hd, hb, h]
      · left; simp [loadRateLimitState, hd, hb, h]

/-- Reloading on the current day with module state equal to the stored
state: both outputs stay in the family of the stored state. -/
theorem loadRateLimitState_today_self (now : Int) (today : String) (s : RLState)
    (hd : s.date = today) :
    loadRateLimitState now today (some s) s = (some s, s) ∨
      loadRateLimitState now today (some s) s =
        (some s, { s with backoffUntil := none }) := by
  cases hb : s.backoffUntil with
  | none => left; simp [loadRateLimitState, hd, hb]
  | some t =>
      by_cases h : now > t
      · right; simp [loadRateLimitState, hd, hb, h]
      · left; simp [loadRateLimitState, hd, hb, h]

/-- C10: on day rollover, loading the ledger discards all prior state —
for every persisted state whose date differs from the current UTC day,
the next load resets the view counter to 0, clears `backoffUntil` even
when it lies in the future, zeroes every per-kind error counter, and
persists the fresh state. -/
theorem rollover_resets_everything (now : Int) (today : String) (s m : RLState)
    (h : s.date ≠ today) :
    loadRateLimitState now today (some s) m =
        (some (freshRLState now today), freshRLState now today) ∧
      (freshRLState now today).viewCount = 0 ∧
      (freshRLState now today).backoffUntil = none ∧
      (freshRLState now today).errors = { e429 := 0, e403 := 0, network := 0 } := by
  refine ⟨?_, rfl, rfl, rfl⟩
  simp [loadRateLimitState, h]

/-- Witness for C10 at a concrete rolled-over state carrying a future
backoff deadline and nonzero counters. -/
theorem rollover_resets_everything_witness :
    ({ date := "2026-02-02", viewCount := 17, lastReset := none,
       backoffUntil := some 99999999, errors := { e429 := 3, e403 := 1, network := 2 } } : RLState).date
        ≠ "2026-02-03" ∧
      loadRateLimitState 5 "2026-02-03"
          (some { date := "2026-02-02", viewCount := 17, lastReset := none,
                  backoffUntil := some 99999999,
                  errors := { e429 := 3, e403 := 1, network := 2 } })
          (freshRLState 0 "2026-02-02") =
          (some (freshRLState 5 "2026-02-03"), freshRLState 5 "2026-02-03") ∧
      (freshRLState 5 "2026-02-03").viewCount = 0 ∧
      (freshRLState 5 "2026-02-03").backoffUntil = none ∧
      (freshRLState 5 "2026-02-03").errors = { e429 := 0, e403 := 0, network := 0 } :=
  ⟨by decide,
   rollover_resets_everything 5 "2026-02-03"
     { date := "2026-02-02", viewCount := 17, lastReset := none,
       backoffUntil := some 99999999, errors := { e429 := 3, e403 := 1, network := 2 } }
     (freshRLState 0 "2026-02-02") (by decide)⟩

/-- C6: evaluation of `canMakeRequest` at the failing input.  With an
expired backoff deadline (state `c6State`, deadline 0, call at time
60000) the call returns `allowed` and clears the deadline in the
module-level state, but the state written back to the file is the
unchanged `c6State`, whose `backoffUntil` is still set: the cleared state
is not persisted by this call (the save inside `loadRateLimitState`
serialises the previous module-level state before the cleared state is
assigned), contradicting the write-through requirement the claim states. -/
theorem expired_backoff_clear_not_persisted :
    canMakeRequest defaultRLConfig 60000 "2026-02-03" (some c6State) c6State =
        (AdmissionResult.allowed, some c6State, { c6State with backoffUntil := none }) ∧
      c6State.backoffUntil = some 0 := by
  exact ⟨by decide, rfl⟩

/-- C8 counterexample: with the daily quota exhausted (`viewCount = 40 =
limit`) and an active future backoff deadline, `canMakeRequest` reports
`backoff`, not `daily_limit` — the backoff check runs first, so the
`daily_limit` denial is not produced independent of backoff state. -/
theorem daily_limit_not_independent_of_backoff :
    (canMakeRequest defaultRLConfig 0 "2026-02-03" (some c8State) c8State).1 =
        AdmissionResult.deniedBackoff 2 ∧
      defaultRLConfig.dailyViewLimit ≤ c8State.viewCount ∧
      c8State.backoffUntil = some 100000 ∧
      (canMakeRequest defaultRLConfig 0 "2026-02-03" (some c8State) c8State).1 ≠
        AdmissionResult.deniedDailyLimit c8State.viewCount defaultRLConfig.dailyViewLimit := by
  exact ⟨by decide, by decide, rfl, by decide⟩

/-- C8 amended: once the view counter reaches the daily limit,
`canMakeRequest` denies with the `daily_limit` reason provided no backoff
deadline lies in the future at the moment of the call (an active future
backoff takes precedence and yields the `backoff` reason instead). -/
theorem daily_limit_denial (cfg : RLConfig) (now : Int) (today : String) (s m : RLState)
    (hd : s.date = today) (hq : cfg.dailyViewLimit ≤ s.viewCount)
    (hb : ∀ t, s.backoffUntil = some t → t ≤ now) :
    (canMakeRequest cfg now today (some s) m).1 =
      AdmissionResult.deniedDailyLimit s.viewCount cfg.dailyViewLimit := by
  cases hbu : s.backoffUntil with
  | none => simp [canMakeRequest, loadRateLimitState, hd, hbu, hq]
  | some t =>
      have ht : t ≤ now := hb t hbu
      rcases lt_or_eq_of_le ht with hlt | heq
      · simp [canMakeRequest, loadRateLimitState, hd, hbu, hlt, hq]
      · subst heq
        simp [canMakeRequest, loadRateLimitState, hd, hbu, lt_irrefl, hq]

/-- Witness for C8 amended at a concrete exhausted state without
backoff. -/
theorem daily_limit_denial_witness :
    c8StateNoBackoff.date = "2026-02-03" ∧
      defaultRLConfig.dailyViewLimit ≤ c8StateNoBackoff.viewCount ∧
      (canMakeRequest defaultRLConfig 0 "2026-02-03" (some c8StateNoBackoff) c8StateNoBackoff).1 =
        AdmissionResult.deniedDailyLimit c8StateNoBackoff.viewCount defaultRLConfig.dailyViewLimit :=
  ⟨rfl, by decide,
   daily_limit_denial defaultRLConfig 0 "2026-02-03" c8StateNoBackoff c8StateNoBackoff
     rfl (by decide) nofun⟩

/-- C2 counterexample: a candidate with a present profile URL, an exactly
matching stated employer, and an empty title is rejected by
`filterResults` — the guard `!person.title` treats the empty string as
falsy and discards the candidate before any matching happens, so the
claim that such a candidate is accepted fails at this input. -/
theorem empty_title_rejected_counterexample :
    filterResults [c2Person] "Acme Corporation" "Marketing Manager" = [] ∧
      c2Person.title = some "" ∧
      c2Person.profileUrl = some "https://www.linkedin.com/in/jane-doe" ∧
      c2Person.company = some "Acme Corporation" := by
  exact ⟨by decide, rfl, rfl, rfl⟩

/-- C2 amended: the relevance filter rejects every candidate whose title
is absent or empty, regardless of the profile URL, the stated employer or
the target company — a missing or empty title is by itself
disqualifying. -/
theorem empty_title_always_rejected (results : List Person) (c r : String) (p : Person)
    (h : p.title = none ∨ p.title = some "") :
    p ∉ filterResults results c r := by
  intro hmem
  have hp := List.of_mem_filter hmem
  rcases h with h | h <;>
    rcases hu : p.profileUrl with _ | u <;>
      simp [personPasses, h, hu, String.isEmpty] at hp

/-- Witness for C2 amended at the concrete empty-title candidate. -/
theorem empty_title_always_rejected_witness :
    (c2Person.title = none ∨ c2Person.title = some "") ∧
      c2Person ∉ filterResults [c2Person] "Acme Corporation" "Marketing Manager" :=
  ⟨Or.inr rfl,
   empty_title_always_rejected [c2Person] "Acme Corporation" "Marketing Manager" c2Person
     (Or.inr rfl)⟩

/-- C3 counterexample: a candidate with non-empty employer text that
satisfies neither criterion of the claimed company-match rule (mutual
containment, or at least half of the target company significant words in
the employer text — shown by `specCompanyMatch` evaluating to `false`)
is nonetheless kept by `filterResults`, because the source filter
contains no company matching at all. -/
theorem company_rule_counterexample :
    filterResults [c3Person] "Acme Corporation" "Marketing Manager" = [c3Person] ∧
      c3Person.company = some "Zzz Unrelated Holdings" ∧
      specCompanyMatch "Zzz Unrelated Holdings" "Acme Corporation" = false := by
  exact ⟨by decide, rfl, by decide⟩

/-- C3 amended: the relevance filter performs no company matching at all
— its result does not depend on the target-company argument, and mapping
any change of the candidates' stated employer commutes with the filter,
so no candidate is ever discarded on company grounds. -/
theorem filter_ignores_company :
    (∀ (results : List Person) (c₁ c₂ r : String),
        filterResults results c₁ r = filterResults results c₂ r) ∧
      (∀ (results : List Person) (c r : String) (f : Person → Option String),
        filterResults (results.map fun p => { p with company := f p }) c r =
          (filterResults results c r).map fun p => { p with company := f p }) := by
  constructor
  · intro results c₁ c₂ r
    rfl
  · intro results c r f
    induction results with
    | nil => rfl
    | cons p ps ih =>
        have hpp : personPasses r { p with company := f p } = personPasses r p := rfl
        by_cases h : personPasses r p = true
        · simp [filterResults, List.filter_cons, hpp, h] at ih ⊢
          exact ih
        · simp [filterResults, List.filter_cons, hpp, h] at ih ⊢
          exact ih


/-- The extraction loop equals first-wins deduplication by raw href of
the admissible records, for any initial seen set. -/
theorem cheerioLoop_eq_dedupByFst : ∀ (ls : List RawLink) (seen : List String),
    cheerioLoop seen ls =
      dedupByFst seen ((ls.filter linkAdmissible).map fun r => (rawKey r, buildPerson r))
  | [], _ => rfl
  | r :: rs, seen => by
      have ih1 := cheerioLoop_eq_dedupByFst rs seen
      have ih2 := cheerioLoop_eq_dedupByFst rs ((r.href.getD "") :: seen)
      cases hh : r.href with
      | none =>
          have ha : linkAdmissible r = false := by simp [linkAdmissible, hh]
          simp [cheerioLoop, hh, List.filter_cons, ha, ih1]
      | some h =>
          by_cases he : h.isEmpty = true
          · have ha : linkAdmissible r = false := by simp [linkAdmissible, hh, he]
            simp [cheerioLoop, hh, he, List.filter_cons, ha, ih1]
          · have he2 : h.isEmpty = false := Bool.eq_false_iff.mpr he
            by_cases hc : h ∈ seen
            · by_cases ha : linkAdmissible r = true
              · simp [cheerioLoop, hh, he2, hc, List.filter_cons, ha, dedupByFst, rawKey, ih1]
              · simp [cheerioLoop, hh, he2, hc, List.filter_cons, ha, ih1]
            · by_cases hcf : r.containerFound = true
              · by_cases hnv :
                    (containsS r.containerText "Sign in" || containsS r.containerText "Join now")
                      = true
                · have ha : linkAdmissible r = false := by
                    simp [linkAdmissible, hh, he2, hcf, hnv]
                  simp [cheerioLoop, hh, he2, hc, hcf, hnv, List.filter_cons, ha, ih1]
                · have hnv2 :
                      (containsS r.containerText "Sign in" || containsS r.containerText "Join now")
                        = false := Bool.eq_false_iff.mpr hnv
                  by_cases hnt : (!r.name.isEmpty || !r.title.isEmpty) = true
                  · have ha : linkAdmissible r = true := by
                      simp [linkAdmissible, hh, he2, hcf, hnv2, hnt]
                    have hk : rawKey r = h := by simp [rawKey, hh]
                    rw [hh] at ih2
                    simp only [Option.getD_some] at ih2
                    simp [cheerioLoop, hh, he2, hc, hcf, hnv2, hnt, List.filter_cons, ha,
                      dedupByFst, hk, ih2]
                  · have hnt2 : (!r.name.isEmpty || !r.title.isEmpty) = false :=
                      Bool.eq_false_iff.mpr hnt
                    have ha : linkAdmissible r = false := by
                      simp [linkAdmissible, hh, he2, hcf, hnv2, hnt2]
                    simp [cheerioLoop, hh, he2, hc, hcf, hnv2, hnt2, List.filter_cons, ha, ih1]
              · have hcf2 : r.containerFound = false := Bool.eq_false_iff.mpr hcf
                have ha : linkAdmissible r = false := by simp [linkAdmissible, hh, hcf2]
                simp [cheerioLoop, hh, he2, hc, hcf2, List.filter_cons, ha, ih1]

/-- First-wins deduplication produces pairwise-distinct keys, none of
which belongs to the initial seen set. -/
theorem dedupByFst_spec : ∀ (l : List (String × ExtractedPerson)) (seen : List String),
    List.Pairwise (fun a b => a.1 ≠ b.1) (dedupByFst seen l) ∧
      ∀ kv ∈ dedupByFst seen l, kv.1 ∉ seen
  | [], _ => ⟨List.Pairwise.nil, by simp [dedupByFst]⟩
  | kv :: rest, seen => by
      by_cases hc : seen.contains kv.1 = true
      · have hcm : kv.1 ∈ seen := by simpa using hc
        have hstep : dedupByFst seen (kv :: rest) = dedupByFst seen rest := by
          simp [dedupByFst, hcm]
        rw [hstep]
        exact dedupByFst_spec rest seen
      · have hcf : seen.contains kv.1 = false := Bool.eq_false_iff.mpr hc
        have hcm : kv.1 ∉ seen := by simpa using hcf
        obtain ⟨hp, hmem⟩ := dedupByFst_spec rest (kv.1 :: seen)
        refine ⟨?_, ?_⟩
        · simp only [dedupByFst, hcf, Bool.false_eq_true, if_false]
          refine List.Pairwise.cons ?_ hp
          intro b hb
          have hb2 := hmem b hb
          simp only [List.mem_cons, not_or] at hb2
          exact fun hEq => hb2.1 hEq.symm
        · intro b hb
          simp only [dedupByFst, hcf, Bool.false_eq_true, if_false, List.mem_cons] at hb
          rcases hb with rfl | hb
          · exact hcm
          · have hb2 := hmem b hb
            simp only [List.mem_cons, not_or] at hb2
            exact hb2.2

/-- C9 counterexample: two result records for the same profile, one with
a relative href and one with the absolute URL, both survive the
extraction — the returned list carries the same normalised absolute
`profileUrl` twice, so candidates are not deduplicated by normalised
profile URL. -/
theorem dedup_not_by_normalized_url :
    (extractSearchResultsWithCheerio [c9Link1, c9Link2]).map ExtractedPerson.profileUrl =
        ["https://www.linkedin.com/in/john-doe", "https://www.linkedin.com/in/john-doe"] ∧
      ¬ List.Pairwise (fun a b => a ≠ b)
          ((extractSearchResultsWithCheerio [c9Link1, c9Link2]).map
            ExtractedPerson.profileUrl) := by
  exact ⟨by decide, by decide⟩

/-- C9 amended: within one extraction call, deduplication is by the raw
`href` attribute, not the normalised absolute URL — the extraction equals
first-wins deduplication (by raw href) of the admissible records, and the
admitted raw hrefs are pairwise distinct; records whose distinct raw
hrefs normalise to the same absolute URL are not deduplicated. -/
theorem dedup_by_raw_href (links : List RawLink) :
    extractSearchResultsWithCheerio links =
        (dedupByFst []
          (((links.filter linkSelected).filter linkAdmissible).map
            fun r => (rawKey r, buildPerson r))).map Prod.snd ∧
      List.Pairwise (fun a b => a.1 ≠ b.1)
        (cheerioLoop [] (links.filter linkSelected)) := by
  constructor
  · unfold extractSearchResultsWithCheerio
    rw [cheerioLoop_eq_dedupByFst]
  · rw [cheerioLoop_eq_dedupByFst]
    exact (dedupByFst_spec _ _).1

/-- C4 counterexample: a navigation that fails with a generic network
error (for example a timeout, no 403/429/Cloudflare markers) makes
`searchPeople` return the normal result `results []` — the same outcome a
successful navigation with zero extracted candidates produces — instead
of surfacing the error: the outer catch swallows network-class failures
and returns an empty list, so the caller cannot distinguish them. -/
theorem network_error_swallowed_counterexample :
    (searchPeople defaultRLConfig 0 "2026-02-03" (some (freshRLState 0 "2026-02-03"))
        (freshRLState 0 "2026-02-03") navNetworkFail []).1 = SearchOutcome.results [] ∧
      (searchPeople defaultRLConfig 0 "2026-02-03" (some (freshRLState 0 "2026-02-03"))
        (freshRLState 0 "2026-02-03") navOk []).1 = SearchOutcome.results [] ∧
      (searchPeople defaultRLConfig 0 "2026-02-03" (some (freshRLState 0 "2026-02-03"))
          (freshRLState 0 "2026-02-03") navNetworkFail []).1 =
        (searchPeople defaultRLConfig 0 "2026-02-03" (some (freshRLState 0 "2026-02-03"))
          (freshRLState 0 "2026-02-03") navOk []).1 := by
  exact ⟨by decide, by decide, by decide⟩

/-- C4 amended: `searchPeople` performs no internal retry on
network-class navigation failures (exactly one navigation is issued), but
it does not surface them either — every admitted navigation whose `goto`
throws without 403/429/Cloudflare markers is converted by the outer catch
into the normal return `results []`, indistinguishable from a successful
search that extracted zero candidates; only 403, 429 and challenge
errors propagate to the caller. -/
theorem network_error_swallowed (cfg : RLConfig) (now : Int) (today : String)
    (file : Option RLState) (mem : RLState) (nav : NavInput)
    (extracted : List ExtractedPerson)
    (hadm : (canMakeRequest cfg now today file mem).1 = AdmissionResult.allowed)
    (hf : nav.gotoFails = true) (h3 : nav.msgHas403 = false) (h9 : nav.msgHas429 = false)
    (hcf : nav.msgHasCloudflare = false) :
    (searchPeople cfg now today file mem nav extracted).1 = SearchOutcome.results [] ∧
      (searchPeople cfg now today file mem nav extracted).2.2.2 = 1 := by
  constructor <;> simp [searchPeople, hadm, hf, h3, h9, hcf]

/-- Witness for C4 amended at a concrete fresh ledger state and a
concrete timeout-style navigation failure. -/
theorem network_error_swallowed_witness :
    (canMakeRequest defaultRLConfig 0 "2026-02-03" (some (freshRLState 0 "2026-02-03"))
        (freshRLState 0 "2026-02-03")).1 = AdmissionResult.allowed ∧
      navNetworkFail.gotoFails = true ∧
      (searchPeople defaultRLConfig 0 "2026-02-03" (some (freshRLState 0 "2026-02-03"))
          (freshRLState 0 "2026-02-03") navNetworkFail []).1 = SearchOutcome.results [] ∧
      (searchPeople defaultRLConfig 0 "2026-02-03" (some (freshRLState 0 "2026-02-03"))
          (freshRLState 0 "2026-02-03") navNetworkFail []).2.2.2 = 1 :=
  ⟨by decide, rfl,
   network_error_swallowed defaultRLConfig 0 "2026-02-03"
     (some (freshRLState 0 "2026-02-03")) (freshRLState 0 "2026-02-03") navNetworkFail []
     (by decide) rfl rfl rfl rfl⟩

/-- `recordView` on a current-day file increments the view counter by
exactly one and persists the result, preserving day and error counters. -/
theorem recordView_today (now : Int) (today : String) (x m : RLState) (hd : x.date = today) :
    (recordView now today (some x) m).1 = some ((recordView now today (some x) m).2) ∧
      ((recordView now today (some x) m).2).viewCount = x.viewCount + 1 ∧
      ((recordView now today (some x) m).2).date = today ∧
      ((recordView now today (some x) m).2).errors = x.errors := by
  rcases loadRateLimitState_mem_today now today x m hd with hL | hL <;>
    simp [recordView, hL, hd]

/-- `handleForbiddenError` on a current-day file bumps only the `403`
counter and persists the result, preserving day and view counter. -/
theorem handleForbiddenError_today (now : Int) (today : String) (x m : RLState)
    (hd : x.date = today) :
    (handleForbiddenError now today (some x) m).1 =
        some ((handleForbiddenError now today (some x) m).2) ∧
      ((handleForbiddenError now today (some x) m).2).viewCount = x.viewCount ∧
      ((handleForbiddenError now today (some x) m).2).date = today ∧
      ((handleForbiddenError now today (some x) m).2).errors = x.errors.bump ErrKind.e403 := by
  rcases loadRateLimitState_mem_today now today x m hd with hL | hL <;>
    simp [handleForbiddenError, hL, hd]

/-- `handleRateLimitError` on a current-day file returns the magnitude
`base * multiplier ^ (previous counter of that kind)`, bumps only that
counter, and persists the result, preserving day and view counter. -/
theorem handleRateLimitError_today (cfg : RLConfig) (now : Int) (today : String)
    (kind : ErrKind) (x m : RLState) (hd : x.date = today) :
    (handleRateLimitError cfg now today kind (some x) m).1 =
        cfg.backoffBase * cfg.backoffMultiplier ^ (x.errors.get kind) ∧
      (handleRateLimitError cfg now today kind (some x) m).2.1 =
        some ((handleRateLimitError cfg now today kind (some x) m).2.2) ∧
      ((handleRateLimitError cfg now today kind (some x) m).2.2).viewCount = x.viewCount ∧
      ((handleRateLimitError cfg now today kind (some x) m).2.2).date = today ∧
      ((handleRateLimitError cfg now today kind (some x) m).2.2).errors =
        x.errors.bump kind := by
  rcases loadRateLimitState_mem_today now today x m hd with hL | hL <;>
    simp [handleRateLimitError, hL, hd]

/-- `canMakeRequest` on a current-day file with module state equal to the
file keeps both output states in the family of the stored state: core
fields (day, view counter, error counters) are preserved on both the
persisted and the module side. -/
theorem canMakeRequest_today (cfg : RLConfig) (now : Int) (today : String) (s : RLState)
    (hd : s.date = today) :
    ∃ r x y, canMakeRequest cfg now today (some s) s = (r, some x, y) ∧
      x.viewCount = s.viewCount ∧ x.date = today ∧ x.errors = s.errors ∧
      y.viewCount = s.viewCount ∧ y.date = today ∧ y.errors = s.errors := by
  rcases loadRateLimitState_today_self now today s hd with hL | hL
  · cases hb : s.backoffUntil with
    | none =>
        by_cases hq : cfg.dailyViewLimit ≤ s.viewCount
        · exact ⟨_, s, s, by simp [canMakeRequest, hL, hb, hq] <;> rfl, rfl, hd, rfl, rfl, hd, rfl⟩
        · exact ⟨_, s, s, by simp [canMakeRequest, hL, hb, hq] <;> rfl, rfl, hd, rfl, rfl, hd, rfl⟩
    | some t =>
        by_cases hlt : now < t
        · exact ⟨_, s, s, by simp [canMakeRequest, hL, hb, hlt] <;> rfl, rfl, hd, rfl, rfl, hd, rfl⟩
        · by_cases hq : cfg.dailyViewLimit ≤ s.viewCount
          · exact ⟨_, { s with backoffUntil := none }, { s with backoffUntil := none },
              by simp [canMakeRequest, hL, hb, hlt, hq] <;> rfl, rfl, hd, rfl, rfl, hd, rfl⟩
          · exact ⟨_, { s with backoffUntil := none }, { s with backoffUntil := none },
              by simp [canMakeRequest, hL, hb, hlt, hq] <;> rfl, rfl, hd, rfl, rfl, hd, rfl⟩
  · -- the reload cleared an expired deadline; the module state has no
    -- backoff left, and the stale save kept the stored state on file
    by_cases hq : cfg.dailyViewLimit ≤ s.viewCount
    · exact ⟨_, s, { s with backoffUntil := none },
        by simp [canMakeRequest, hL, hq] <;> rfl, rfl, hd, rfl, rfl, hd, rfl⟩
    · exact ⟨_, s, { s with backoffUntil := none },
        by simp [canMakeRequest, hL, hq] <;> rfl, rfl, hd, rfl, rfl, hd, rfl⟩

/-- C1 counterexample: an admitted search navigation answered with HTTP
status 429 is issued (one navigation) after a successful admission check,
yet the persisted request counter is not incremented — `recordView` runs
only after the status checks, so navigations answered 403/429 or with a
detected challenge are never recorded, contradicting the claimed
exactly-once recording of every admitted navigation. -/
theorem admitted_429_not_recorded :
    (canMakeRequest defaultRLConfig 0 "2026-02-03" (some (freshRLState 0 "2026-02-03"))
        (freshRLState 0 "2026-02-03")).1 = AdmissionResult.allowed ∧
      (searchPeople defaultRLConfig 0 "2026-02-03" (some (freshRLState 0 "2026-02-03"))
          (freshRLState 0 "2026-02-03") c1Nav429 []).2.2.2 = 1 ∧
      (searchPeople defaultRLConfig 0 "2026-02-03" (some (freshRLState 0 "2026-02-03"))
          (freshRLState 0 "2026-02-03") c1Nav429 []).1 = SearchOutcome.err429 ∧
      (searchPeople defaultRLConfig 0 "2026-02-03" (some (freshRLState 0 "2026-02-03"))
          (freshRLState 0 "2026-02-03") c1Nav429 []).2.2.1.viewCount = 0 := by
  refine ⟨by decide, by decide, by decide, ?_⟩
  have hadm : canMakeRequest defaultRLConfig 0 "2026-02-03"
      (some (freshRLState 0 "2026-02-03")) (freshRLState 0 "2026-02-03") =
      (AdmissionResult.allowed, some (freshRLState 0 "2026-02-03"),
        freshRLState 0 "2026-02-03") := by decide
  have hh1 := handleRateLimitError_today defaultRLConfig 0 "2026-02-03" ErrKind.e429
    (freshRLState 0 "2026-02-03") (freshRLState 0 "2026-02-03") rfl
  have hh2 := handleRateLimitError_today defaultRLConfig 0 "2026-02-03" ErrKind.e429
    ((handleRateLimitError defaultRLConfig 0 "2026-02-03" ErrKind.e429
        (some (freshRLState 0 "2026-02-03")) (freshRLState 0 "2026-02-03")).2.2)
    ((handleRateLimitError defaultRLConfig 0 "2026-02-03" ErrKind.e429
        (some (freshRLState 0 "2026-02-03")) (freshRLState 0 "2026-02-03")).2.2)
    hh1.2.2.2.1
  simp [searchPeople, hadm, c1Nav429, hh1.2.1, hh2.2.2.1, hh1.2.2.1]
  rfl

/-- C1 amended ledger invariant: on the current day, a search navigation
is issued exactly when the admission check allows it, and the view
counter is incremented exactly once for an admitted navigation that
completes without a 403/429 status or a detected challenge, and zero
times otherwise (in particular 403/429/challenge/network-failure
navigations are issued but not recorded). -/
theorem admission_and_recording (cfg : RLConfig) (now : Int) (today : String) (s : RLState)
    (nav : NavInput) (extracted : List ExtractedPerson) (hd : s.date = today) :
    ((searchPeople cfg now today (some s) s nav extracted).2.2.2 = 1 ↔
        (canMakeRequest cfg now today (some s) s).1 = AdmissionResult.allowed) ∧
      (searchPeople cfg now today (some s) s nav extracted).2.2.1.viewCount =
        s.viewCount +
          (if (canMakeRequest cfg now today (some s) s).1 = AdmissionResult.allowed
              ∧ navCompletes nav = true then 1 else 0) := by
  obtain ⟨r, x, y, hEq, hxv, hxd, hxe, hyv, hyd, hye⟩ := canMakeRequest_today cfg now today s hd
  have hr1 : (canMakeRequest cfg now today (some s) s).1 = r := by rw [hEq]
  by_cases hr : r = AdmissionResult.allowed
  · subst hr
    by_cases hgf : nav.gotoFails = true
    · have hnc : navCompletes nav = false := by simp [navCompletes, hgf]
      by_cases h403 : nav.msgHas403 = true
      · have hf := handleForbiddenError_today now today x y hxd
        simp [searchPeople, hEq, hr1, hgf, h403, hnc, hf.2.1, hxv]
      · by_cases h429 : nav.msgHas429 = true
        · have hh := handleRateLimitError_today cfg now today ErrKind.e429 x y hxd
          simp [searchPeople, hEq, hr1, hgf, h403, h429, hnc, hh.2.2.1, hxv]
        · by_cases hcf : nav.msgHasCloudflare = true
          · simp [searchPeople, hEq, hr1, hgf, h403, h429, hcf, hnc, hyv]
          · simp [searchPeople, hEq, hr1, hgf, h403, h429, hcf, hnc, hyv]
    · by_cases h403 : nav.status = some 403
      · have hnc : navCompletes nav = false := by simp [navCompletes, h403]
        have hf1 := handleForbiddenError_today now today x y hxd
        have hf2 := handleForbiddenError_today now today
          ((handleForbiddenError now today (some x) y).2)
          ((handleForbiddenError now today (some x) y).2) hf1.2.2.1
        simp [searchPeople, hEq, hr1, hgf, h403, hnc, hf1.1, hf1.2.1, hf2.2.1, hxv]
      · by_cases h429 : nav.status = some 429
        · have hnc : navCompletes nav = false := by simp [navCompletes, h429]
          have hh1 := handleRateLimitError_today cfg now today ErrKind.e429 x y hxd
          have hh2 := handleRateLimitError_today cfg now today ErrKind.e429
            ((handleRateLimitError cfg now today ErrKind.e429 (some x) y).2.2)
            ((handleRateLimitError cfg now today ErrKind.e429 (some x) y).2.2) hh1.2.2.2.1
          simp [searchPeople, hEq, hr1, hgf, h403, h429, hnc, hh1.2.1, hh1.2.2.1,
            hh2.2.2.1, hxv]
        · by_cases hcc : nav.contentChallenge = true
          · have hnc : navCompletes nav = false := by simp [navCompletes, hcc]
            simp [searchPeople, hEq, hr1, hgf, h403, h429, hcc, hnc, hyv]
          · have hnc : navCompletes nav = true := by
              simp [navCompletes, hgf, h403, h429, hcc]
            have hrv := recordView_today now today x y hxd
            simp [searchPeople, hEq, hr1, hgf, h403, h429, hcc, hnc, hrv.2.1, hxv]
  · simp [searchPeople, hEq, hr1, hr, hyv]

/-- Witness for C1 amended at a fresh current-day ledger and a
successfully completing navigation. -/
theorem admission_and_recording_witness :
    (freshRLState 0 "2026-02-03").date = "2026-02-03" ∧
      (((searchPeople defaultRLConfig 0 "2026-02-03" (some (freshRLState 0 "2026-02-03"))
            (freshRLState 0 "2026-02-03") navOk []).2.2.2 = 1 ↔
          (canMakeRequest defaultRLConfig 0 "2026-02-03" (some (freshRLState 0 "2026-02-03"))
            (freshRLState 0 "2026-02-03")).1 = AdmissionResult.allowed) ∧
        (searchPeople defaultRLConfig 0 "2026-02-03" (some (freshRLState 0 "2026-02-03"))
            (freshRLState 0 "2026-02-03") navOk []).2.2.1.viewCount =
          (freshRLState 0 "2026-02-03").viewCount +
            (if (canMakeRequest defaultRLConfig 0 "2026-02-03"
                  (some (freshRLState 0 "2026-02-03")) (freshRLState 0 "2026-02-03")).1 =
                    AdmissionResult.allowed
                ∧ navCompletes navOk = true then 1 else 0)) :=
  ⟨rfl,
   admission_and_recording defaultRLConfig 0 "2026-02-03" (freshRLState 0 "2026-02-03")
     navOk [] rfl⟩

/-- Backoff magnitudes of consecutive `429` failures on one day: the k-th
call returns `base * multiplier ^ (initial counter + k)`. -/
theorem consecutiveRateLimitCalls_formula (cfg : RLConfig) (today : String) :
    ∀ (times : List Int) (s : RLState), s.date = today →
      (consecutiveRateLimitCalls cfg today times (some s) s).1 =
        (List.range times.length).map
          (fun k => cfg.backoffBase * cfg.backoffMultiplier ^ (s.errors.e429 + k))
  | [], s, _ => by simp [consecutiveRateLimitCalls]
  | t :: ts, s, hd => by
      have hh := handleRateLimitError_today cfg t today ErrKind.e429 s s hd
      have ih := consecutiveRateLimitCalls_formula cfg today ts
        ((handleRateLimitError cfg t today ErrKind.e429 (some s) s).2.2) hh.2.2.2.1
      have hz : ((handleRateLimitError cfg t today ErrKind.e429 (some s) s).2.2).errors.e429 =
          s.errors.e429 + 1 := by rw [hh.2.2.2.2]; rfl
      simp only [consecutiveRateLimitCalls, hh.2.1, List.length_cons]
      rw [ih, hz, hh.1]
      rw [List.range_succ_eq_map, List.map_cons, List.map_map]
      refine congrArg₂ _ ?_ ?_
      · simp [ErrCounters.get]
      · refine List.map_congr_left ?_
        intro k _
        simp only [Function.comp, Nat.succ_eq_add_one, pow_succ, pow_add]
        ring

/-- C7: N consecutive `recordFailure('rate-limited')` calls starting from
a zero counter produce the backoff magnitudes
`base * multiplier ^ (k)` for `k = 0 … N-1`, a strictly increasing
sequence for multiplier > 1 and base > 0; the counters are per-kind: a
`network` or `forbidden` failure leaves the `429` counter unchanged, and
the magnitude of a subsequent rate-limited backoff is the same as if the
other-kind failure had not happened. -/
theorem rate_limited_backoff_exponential (cfg : RLConfig) (today : String)
    (times : List Int) (s : RLState) (t1 t2 : Int)
    (hd : s.date = today) (h0 : s.errors.e429 = 0)
    (hb : 0 < cfg.backoffBase) (hm : 1 < cfg.backoffMultiplier) :
    (consecutiveRateLimitCalls cfg today times (some s) s).1 =
        (List.range times.length).map
          (fun k => cfg.backoffBase * cfg.backoffMultiplier ^ k) ∧
      List.Pairwise (· < ·) (consecutiveRateLimitCalls cfg today times (some s) s).1 ∧
      ((handleRateLimitError cfg t1 today ErrKind.network (some s) s).2.2).errors.e429 =
        s.errors.e429 ∧
      ((handleForbiddenError t1 today (some s) s).2).errors.e429 = s.errors.e429 ∧
      (handleRateLimitError cfg t2 today ErrKind.e429
          (handleRateLimitError cfg t1 today ErrKind.network (some s) s).2.1
          (handleRateLimitError cfg t1 today ErrKind.network (some s) s).2.2).1 =
        (handleRateLimitError cfg t2 today ErrKind.e429 (some s) s).1 := by
  have hform := consecutiveRateLimitCalls_formula cfg today times s hd
  rw [h0] at hform
  simp only [Nat.zero_add] at hform
  have hnet := handleRateLimitError_today cfg t1 today ErrKind.network s s hd
  have hforb := handleForbiddenError_today t1 today s s hd
  refine ⟨hform, ?_, ?_, ?_, ?_⟩
  · rw [hform]
    rw [List.pairwise_map]
    refine (List.pairwise_lt_range _).imp ?_
    intro i j hij
    exact mul_lt_mul_of_pos_left (pow_lt_pow_right₀ hm hij) hb
  · rw [hnet.2.2.2.2]; rfl
  · rw [hforb.2.2.2]; rfl
  · have hsecond := handleRateLimitError_today cfg t2 today ErrKind.e429
      ((handleRateLimitError cfg t1 today ErrKind.network (some s) s).2.2)
      ((handleRateLimitError cfg t1 today ErrKind.network (some s) s).2.2) hnet.2.2.2.1
    have hdirect := handleRateLimitError_today cfg t2 today ErrKind.e429 s s hd
    rw [hnet.2.1, hsecond.1, hdirect.1, hnet.2.2.2.2]
    rfl

/-- Witness for C7 at the default configuration, a fresh current-day
state and two consecutive call times. -/
theorem rate_limited_backoff_exponential_witness :
    (freshRLState 0 "2026-02-03").date = "2026-02-03" ∧
      (freshRLState 0 "2026-02-03").errors.e429 = 0 ∧
      0 < defaultRLConfig.backoffBase ∧
      1 < defaultRLConfig.backoffMultiplier ∧
      ((consecutiveRateLimitCalls defaultRLConfig "2026-02-03" [0, 1000]
            (some (freshRLState 0 "2026-02-03")) (freshRLState 0 "2026-02-03")).1 =
          (List.range ([0, 1000] : List Int).length).map
            (fun k => defaultRLConfig.backoffBase * defaultRLConfig.backoffMultiplier ^ k) ∧
        List.Pairwise (· < ·)
          (consecutiveRateLimitCalls defaultRLConfig "2026-02-03" [0, 1000]
            (some (freshRLState 0 "2026-02-03")) (freshRLState 0 "2026-02-03")).1 ∧
        ((handleRateLimitError defaultRLConfig 0 "2026-02-03" ErrKind.network
            (some (freshRLState 0 "2026-02-03")) (freshRLState 0 "2026-02-03")).2.2).errors.e429 =
          (freshRLState 0 "2026-02-03").errors.e429 ∧
        ((handleForbiddenError 0 "2026-02-03" (some (freshRLState 0 "2026-02-03"))
            (freshRLState 0 "2026-02-03")).2).errors.e429 =
          (freshRLState 0 "2026-02-03").errors.e429 ∧
        (handleRateLimitError defaultRLConfig 5 "2026-02-03" ErrKind.e429
            (handleRateLimitError defaultRLConfig 0 "2026-02-03" ErrKind.network
              (some (freshRLState 0 "2026-02-03")) (freshRLState 0 "2026-02-03")).2.1
            (handleRateLimitError defaultRLConfig 0 "2026-02-03" ErrKind.network
              (some (freshRLState 0 "2026-02-03")) (freshRLState 0 "2026-02-03")).2.2).1 =
          (handleRateLimitError defaultRLConfig 5 "2026-02-03" ErrKind.e429
            (some (freshRLState 0 "2026-02-03")) (freshRLState 0 "2026-02-03")).1) :=
  ⟨rfl, rfl, by decide, by decide,
   rate_limited_backoff_exponential defaultRLConfig "2026-02-03" [0, 1000]
     (freshRLState 0 "2026-02-03") 0 5 rfl rfl (by decide) (by decide)⟩

/-- Trimming is idempotent. -/
theorem trimL_idem (l : List Char) : trimL (trimL l) = trimL l := by
  have h1 : ∀ x : List Char, trimL x = List.rdropWhile isSpaceL (x.dropWhile isSpaceL) := by
    intro x
    simp [trimL, List.rdropWhile]
  have hinner :
      (List.rdropWhile isSpaceL (l.dropWhile isSpaceL)).dropWhile isSpaceL =
        List.rdropWhile isSpaceL (l.dropWhile isSpaceL) := by
    cases hr : List.rdropWhile isSpaceL (l.dropWhile isSpaceL) with
    | nil => simp
    | cons c cs =>
        obtain ⟨t, ht⟩ := List.rdropWhile_prefix isSpaceL (l.dropWhile isSpaceL)
        rw [hr] at ht
        have hc9 := List.head?_dropWhile_not isSpaceL l
        rw [← ht] at hc9
        simp only [List.cons_append, List.head?_cons] at hc9
        simp [List.dropWhile_cons, hc9]
  calc trimL (trimL l)
      = List.rdropWhile isSpaceL ((trimL l).dropWhile isSpaceL) := h1 _
    _ = List.rdropWhile isSpaceL (List.rdropWhile isSpaceL (l.dropWhile isSpaceL)) := by
        rw [h1 l, hinner]
    _ = List.rdropWhile isSpaceL (l.dropWhile isSpaceL) :=
        List.rdropWhile_idempotent _ _
    _ = trimL l := (h1 l).symm

/-- Characters produced by whitespace collapsing: a space, or a
non-whitespace character of the input. -/
theorem mem_collapseWsAux (c : Char) :
    ∀ (b : Bool) (l : List Char), c ∈ collapseWsAux b l →
      c = ' ' ∨ (c ∈ l ∧ isSpaceL c = false)
  | _, [], h => by simp [collapseWsAux] at h
  | b, d :: ds, h => by
      by_cases hs : isSpaceL d = true
      · cases b with
        | true =>
            simp only [collapseWsAux, hs, if_true] at h
            rcases mem_collapseWsAux c true ds h with h | ⟨h1, h2⟩
            · exact Or.inl h
            · exact Or.inr ⟨List.mem_cons_of_mem _ h1, h2⟩
        | false =>
            simp only [collapseWsAux, hs, if_true] at h
            rcases List.mem_cons.mp h with h | h
            · exact Or.inl h
            · rcases mem_collapseWsAux c true ds h with h | ⟨h1, h2⟩
              · exact Or.inl h
              · exact Or.inr ⟨List.mem_cons_of_mem _ h1, h2⟩
      · have hs2 : isSpaceL d = false := Bool.eq_false_iff.mpr hs
        simp only [collapseWsAux, hs2, Bool.false_eq_true, if_false] at h
        rcases List.mem_cons.mp h with h | h
        · subst h
          exact Or.inr ⟨List.mem_cons_self _ _, hs2⟩
        · rcases mem_collapseWsAux c false ds h with h | ⟨h1, h2⟩
          · exact Or.inl h
          · exact Or.inr ⟨List.mem_cons_of_mem _ h1, h2⟩

/-- Trimming only removes characters. -/
theorem mem_trimL (c : Char) (l : List Char) (h : c ∈ trimL l) : c ∈ l := by
  simp only [trimL, List.mem_reverse] at h
  have h2 := (List.dropWhile_suffix isSpaceL).sublist.subset h
  rw [List.mem_reverse] at h2
  exact (List.dropWhile_suffix isSpaceL).sublist.subset h2

/-- Every character of a normalized title is a space or a word
character. -/
theorem mem_normalizeTitle (c : Char) (l : List Char) (h : c ∈ normalizeTitle l) :
    c = ' ' ∨ isWordCharL c = true := by
  have h1 := mem_trimL c _ h
  rcases mem_collapseWsAux c false _ h1 with h2 | ⟨h2, h3⟩
  · exact Or.inl h2
  · rcases List.mem_map.mp h2 with ⟨a, _, ha⟩
    by_cases hw : (isWordCharL a || isSpaceL a) = true
    · rw [if_pos hw] at ha
      subst ha
      rcases Bool.or_eq_true_iff.mp hw with hw | hw
      · exact Or.inr hw
      · rw [hw] at h3
        cases h3
    · rw [if_neg hw] at ha
      exact Or.inl ha.symm

/-- The vertical bar never survives title normalization. -/
theorem not_bar_mem_normalizeTitle (l : List Char) : '|' ∉ normalizeTitle l := by
  intro h
  rcases mem_normalizeTitle _ _ h with h | h
  · exact absurd h (by decide)
  · exact absurd h (by decide)

/-- Splitting on a character that does not occur yields the whole list. -/
theorem splitCharAux_of_not_mem (sep : Char) :
    ∀ (l acc : List Char), sep ∉ l → splitCharAux sep acc l = [acc.reverse ++ l]
  | [], acc, _ => by simp [splitCharAux]
  | c :: cs, acc, h => by
      have hc : ¬(c = sep) := fun hEq => h (hEq ▸ List.mem_cons_self c cs)
      have hcs : sep ∉ cs := fun hmem => h (List.mem_cons_of_mem _ hmem)
      simp only [splitCharAux, hc, if_false]
      rw [splitCharAux_of_not_mem sep cs (c :: acc) hcs]
      simp

/-- `split(sep)[0]` of a separator-free string is the string itself. -/
theorem splitCharL_headD_of_not_mem (sep : Char) (l : List Char) (h : sep ∉ l) :
    (splitCharL sep l).headD [] = l := by
  simp [splitCharL, splitCharAux_of_not_mem sep l [] h]

/-- C5: role-match rule of the relevance filter.  For normalized titles,
`titleMatch` holds iff — with at least one significant target word — at
least `max(1, ceil(wordCount/2))` of the significant words appear in the
candidate title (exactly, as a substring, or prefix-wise against its
space-separated tokens, in either prefix direction, which is the
`wordMatches` test), or one normalized string contains the other; with no
significant words it reduces to plain mutual substring containment.  The
redundant ratio disjunct of the source collapses into the threshold, and
the source containment check through `split('|')[0].trim()` equals plain
containment because normalization removes every bar and trims. -/
theorem role_match_rule (personTitle searchTitle : String) (npt nst : List Char)
    (hp : npt = normalizeTitle (lowerL personTitle.data))
    (hs : nst = normalizeTitle (lowerL searchTitle.data)) :
    titleMatch npt nst = true ↔
      (if 0 < (jobTitleWords nst).length then
        max 1 (((jobTitleWords nst).length + 1) / 2) ≤
            ((jobTitleWords nst).filter (wordMatches npt)).length
          ∨ containsL npt nst = true ∨ containsL nst npt = true
      else
        containsL npt nst = true ∨ containsL nst npt = true) := by
  have hbar : (splitCharL '|' npt).headD [] = npt :=
    splitCharL_headD_of_not_mem '|' npt (hp ▸ not_bar_mem_normalizeTitle _)
  have htrim : trimL npt = npt := by
    rw [hp]
    unfold normalizeTitle
    exact trimL_idem _
  simp only [titleMatch]
  by_cases hn : 0 < (jobTitleWords nst).length
  · rw [if_pos hn, if_pos hn, hbar, htrim]
    simp only [Bool.or_eq_true, decide_eq_true_eq]
    constructor
    · rintro (((h | h) | h) | h)
      · exact Or.inl h
      · exact Or.inl (by omega)
      · exact Or.inr (Or.inl h)
      · exact Or.inr (Or.inr h)
    · rintro (h | h | h)
      · exact Or.inl (Or.inl (Or.inl h))
      · exact Or.inl (Or.inr h)
      · exact Or.inr h
  · rw [if_neg hn, if_neg hn]
    simp only [Bool.or_eq_true]

/-- Witness for C5 at the concrete titles of the specification scenario
(candidate title "Senior Marketing Manager", target role
"Marketing Manager"). -/
theorem role_match_rule_witness :
    (normalizeTitle (lowerL "Senior Marketing Manager".data) =
        normalizeTitle (lowerL "Senior Marketing Manager".data) ∧
      normalizeTitle (lowerL "Marketing Manager".data) =
        normalizeTitle (lowerL "Marketing Manager".data)) ∧
      (titleMatch (normalizeTitle (lowerL "Senior Marketing Manager".data))
          (normalizeTitle (lowerL "Marketing Manager".data)) = true ↔
        (if 0 < (jobTitleWords (normalizeTitle (lowerL "Marketing Manager".data))).length then
          max 1 (((jobTitleWords (normalizeTitle (lowerL "Marketing Manager".data))).length + 1) / 2) ≤
              ((jobTitleWords (normalizeTitle (lowerL "Marketing Manager".data))).filter
                (wordMatches (normalizeTitle (lowerL "Senior Marketing Manager".data)))).length
            ∨ containsL (normalizeTitle (lowerL "Senior Marketing Manager".data))
                (normalizeTitle (lowerL "Marketing Manager".data)) = true
            ∨ containsL (normalizeTitle (lowerL "Marketing Manager".data))
                (normalizeTitle (lowerL "Senior Marketing Manager".data)) = true
        else
          containsL (normalizeTitle (lowerL "Senior Marketing Manager".data))
              (normalizeTitle (lowerL "Marketing Manager".data)) = true
            ∨ containsL (normalizeTitle (lowerL "Marketing Manager".data))
                (normalizeTitle (lowerL "Senior Marketing Manager".data)) = true)) :=
  ⟨⟨rfl, rfl⟩,
   role_match_rule "Senior Marketing Manager" "Marketing Manager"
     (normalizeTitle (lowerL "Senior Marketing Manager".data))
     (normalizeTitle (lowerL "Marketing Manager".data)) rfl rfl⟩
